import Mathlib

/-!
Verification development for the Telugu news rewrite server
(ingestion → deduplication → rewrite → publish pipeline).

The JavaScript source is shallowly embedded: pure helpers become Lean
functions on `List Char` / `String`, the database boundary becomes explicit
list-valued state, the external generative call becomes an oracle parameter,
and a fallible store insert becomes an `Except`-valued operation.
All definitions are executable.
-/

namespace TeluguRewrite

/-! ## Generic character-list helpers -/

/-- JavaScript `String.prototype.split(sep)` on a single-character separator:
splits at every occurrence, keeping empty pieces (`"".split` gives `[""]`). -/
def splitOnChar (sep : Char) : List Char → List (List Char)
  | [] => [[]]
  | c :: cs =>
    let r := splitOnChar sep cs
    if c == sep then [] :: r
    else
      match r with
      | [] => [[c]]
      | h :: t => (c :: h) :: t

/-- Does `l` start with `pre`? (plain structural comparison). -/
def startsWithChars : (pre l : List Char) → Bool
  | [], _ => true
  | _ :: _, [] => false
  | p :: ps, c :: cs => p == c && startsWithChars ps cs

/-- Substring containment on character lists: does `hay` contain `needle`
as a contiguous run? Models a regex test whose pattern is a fully escaped
literal string. -/
def containsChars (needle : List Char) : (hay : List Char) → Bool
  | [] => startsWithChars needle []
  | c :: cs => startsWithChars needle (c :: cs) || containsChars needle cs

/-- JavaScript `String.prototype.replace(pat, rep)` with a plain-string
pattern: replaces only the first occurrence. -/
def replaceFirstChars (pat rep : List Char) : List Char → List Char
  | [] => []
  | c :: cs =>
    if startsWithChars pat (c :: cs) then rep ++ (c :: cs).drop pat.length
    else c :: replaceFirstChars pat rep cs

/-- ASCII lowercasing of a character list (models the `i` regex flag and
`String.prototype.toLowerCase` on the ASCII inputs the pipeline handles). -/
def lowerChars (l : List Char) : List Char := l.map Char.toLower

/-! ## Normalizer (src/src/utils/helpers.js, duplicated at src/server.js
lines 216-239)

`new URL(...)` is modelled on the fragment of the WHATWG grammar these
helpers exercise: `scheme://host[/path][?query][#fragment]`.  Host
canonicalization, ports, userinfo, percent-encoding and dot-segment
resolution are outside the modelled fragment; within it, parsing and
serialization follow the WHATWG behavior the Node runtime exhibits
(an absent path serializes as "/", empty path segments are preserved,
everything after the first `#` is the fragment, a present-but-empty
fragment serializes as a bare `#`). -/

structure UrlObj where
  scheme : List Char
  host : List Char
  /-- Always starts with '/' and contains no '?' or '#'. -/
  pathname : List Char
  /-- Query without the leading '?'; `[]` plays the role of a null query,
  which is what `urlObj.search = ""` produces. -/
  search : List Char
  /-- `none` = no fragment; `some []` = bare trailing `#`. -/
  fragment : Option (List Char)
deriving DecidableEq

/-- Character allowed inside the host component. -/
def hostChar (c : Char) : Bool := !(c == '/') && !(c == '?') && !(c == '#')

/-- Character allowed inside the path component. -/
def pathChar (c : Char) : Bool := !(c == '?') && !(c == '#')

/-- Split the part after the authority into (path, query, fragment): the
path runs to the first `?` or `#`, the query from `?` to the first `#`,
the fragment is everything after the first `#`. -/
def parsePSF (cs : List Char) : List Char × List Char × Option (List Char) :=
  match cs.dropWhile pathChar with
  | '?' :: r2 =>
    (cs.takeWhile pathChar, r2.takeWhile (fun c => !(c == '#')),
      match r2.dropWhile (fun c => !(c == '#')) with
      | '#' :: r4 => some r4
      | _ => none)
  | '#' :: r2 => (cs.takeWhile pathChar, [], some r2)
  | _ => (cs.takeWhile pathChar, [], none)

/-- Model of `new URL(s)` on the fragment described above (the scheme runs
to the first `:`, the authority must follow as `//`, the host to the first
`/?#`, the remainder through `parsePSF`; an absent path becomes "/");
`none` models the constructor throwing. -/
def parseUrlChars (cs : List Char) : Option UrlObj :=
  if (cs.takeWhile (fun c => !(c == ':'))).isEmpty then none
  else
    match cs.dropWhile (fun c => !(c == ':')) with
    | ':' :: '/' :: '/' :: rest2 =>
      if (rest2.takeWhile hostChar).isEmpty then none
      else
        some { scheme := cs.takeWhile (fun c => !(c == ':')),
               host := rest2.takeWhile hostChar,
               pathname :=
                 if (parsePSF (rest2.dropWhile hostChar)).1.isEmpty then ['/']
                 else (parsePSF (rest2.dropWhile hostChar)).1,
               search := (parsePSF (rest2.dropWhile hostChar)).2.1,
               fragment := (parsePSF (rest2.dropWhile hostChar)).2.2 }
    | _ => none

/-- Model of `urlObj.toString()`. -/
def serializeUrl (u : UrlObj) : List Char :=
  u.scheme ++ (':' :: '/' :: '/' :: u.host) ++ u.pathname
    ++ (if u.search.isEmpty then [] else '?' :: u.search)
    ++ (match u.fragment with
        | none => []
        | some f => '#' :: f)

/-- `normalizeUrl` on character lists: parse, clear the query, serialize,
strip a single trailing slash; return the input unchanged when parsing
fails.  (`if (!url) return ""` is subsumed: the empty list fails to parse
and is returned as is.) -/
def normalizeUrlChars (cs : List Char) : List Char :=
  match parseUrlChars cs with
  | none => cs
  | some u =>
    let clean := serializeUrl { u with search := [] }
    if clean.getLast? == some '/' then clean.dropLast else clean

/-- `normalizeUrl(url)` from src/src/utils/helpers.js lines 5-16
(= src/server.js lines 216-225). -/
def normalizeUrl (s : String) : String := (normalizeUrlChars s.toList).asString

/-- Is the (nonempty) list made of digits only?  Models `/^\d+$/.test(slug)`. -/
def isAllDigits (l : List Char) : Bool := !l.isEmpty && l.all Char.isDigit

/-- Case-insensitive suffix test. -/
def endsWithCI (suf l : List Char) : Bool :=
  suf.length ≤ l.length && lowerChars (l.drop (l.length - suf.length)) == lowerChars suf

/-- Models `slug.replace(/\.html?$/i, "")`: strip one trailing `.html` or
`.htm`, case-insensitively. -/
def stripHtmlSuffix (l : List Char) : List Char :=
  if endsWithCI ('.' :: ['h', 't', 'm', 'l']) l then l.take (l.length - 5)
  else if endsWithCI ('.' :: ['h', 't', 'm']) l then l.take (l.length - 4)
  else l

/-- `extractSlugFromUrl` on character lists; follows helpers.js lines 18-32:
last path segment, a purely-numeric final segment replaced by the one before
it when there are at least two segments, `.htm`/`.html` stripped,
underscores to hyphens, lowercased; `[]` on any failure. -/
def extractSlugFromUrlChars (cs : List Char) : List Char :=
  match parseUrlChars cs with
  | none => []
  | some u =>
    let segs := (splitOnChar '/' u.pathname).filter (fun l => !l.isEmpty)
    match segs.getLast? with
    | none => []
    | some lastSeg =>
      let slug :=
        if isAllDigits lastSeg && decide (1 < segs.length) then
          (segs.dropLast.getLast?).getD lastSeg
        else lastSeg
      lowerChars ((stripHtmlSuffix slug).map (fun c => if c == '_' then '-' else c))

/-- `extractSlugFromUrl(url)` from src/src/utils/helpers.js lines 18-32
(= src/server.js lines 227-239). -/
def extractSlugFromUrl (s : String) : String :=
  (extractSlugFromUrlChars s.toList).asString

/-! ## string-similarity (the npm `string-similarity` package,
`compareTwoStrings` / `findBestMatch`)

This external library is the similarity measure the Feed Fetcher calls;
it is embedded from its well-known source (a bigram Sørensen–Dice
coefficient).  Ratings are modelled in `ℚ`; the concrete comparisons the
claims exercise involve only ratios whose double rounding agrees with the
exact rational comparison. -/

/-- `str.replace(/\s+/g, '')`: drop all whitespace. -/
def stripWs (l : List Char) : List Char := l.filter (fun c => !c.isWhitespace)

/-- Consecutive character pairs of a list. -/
def bigrams : List Char → List (Char × Char)
  | a :: b :: rest => (a, b) :: bigrams (b :: rest)
  | _ => []

/-- Multiset-intersection cardinality of two bigram lists; models the
count-decrementing `Map` loop of `compareTwoStrings`. -/
def interCount : List (Char × Char) → List (Char × Char) → ℕ
  | [], _ => 0
  | x :: xs, ys => if ys.contains x then interCount xs (ys.erase x) + 1 else interCount xs ys

/-- `compareTwoStrings(first, second)` of the string-similarity package:
whitespace-stripped Dice coefficient over character bigrams. -/
def compareTwoStrings (s1 s2 : String) : ℚ :=
  let a := stripWs s1.toList
  let b := stripWs s2.toList
  if a == b then 1
  else if a.length < 2 || b.length < 2 then 0
  else mkRat (2 * interCount (bigrams a) (bigrams b)) (a.length + b.length - 2)

/-- The `bestMatch.rating` of `findBestMatch(s, ts)`: the maximum rating
over the target list (ratings are nonnegative, and the fetcher only calls
this on a nonempty list). -/
def bestMatchRating (s : String) (ts : List String) : ℚ :=
  (ts.map (compareTwoStrings s)).foldl max 0

/-! ## Data model

Fields the pipeline reads are modelled; absent/`null`/`undefined` string
fields are modelled as `""` exactly where the source only ever tests them
for truthiness, and as `Option` where the source distinguishes `undefined`
from a present value (`item.extendedEntities?.media`). -/

/-- One `{url, content_type, bitrate}` variant inside `video_info`. -/
structure VideoVariant where
  content_type : String
  bitrate : ℕ
  url : String
deriving DecidableEq

/-- One attachment of `media` / `extendedEntities.media`. -/
structure MediaObj where
  type : String
  media_url_https : String
  url : String
  /-- `video_info?.variants || []`. -/
  variants : List VideoVariant
deriving DecidableEq

/-- One `{title, summary, imageUrl, url}` sidecar story. -/
structure RelatedStory where
  title : String
  summary : String
  imageUrl : String
  url : String
deriving DecidableEq

/-- A queue document (the fields the Worker and Fetcher read).  `id` models
the Mongo document identity that `Queue.deleteOne({ _id: ... })` targets.
Scheduling-only fields (`postType`, `promptType`, `useAuthorContext`) are
not read by the modelled pipeline and are omitted. -/
structure QItem where
  id : String
  text : String
  url : String
  imageUrl : String
  media : List MediaObj
  /-- `extendedEntities?.media`: `none` models a missing `extendedEntities`
  or `media` key, `some l` a present array `l`. -/
  eeMedia : Option (List MediaObj)
  source : String
  /-- `item.user?.name`, with `""` for a missing user/name. -/
  userName : String
  relatedStories : List RelatedStory
  queuedAt : ℕ
deriving DecidableEq

/-- A persisted post (the fields the pipeline writes or reads). -/
structure Post where
  postId : ℕ
  title : String
  summary : String
  text : String
  url : String
  imageSearchSlug : String
  source : String
  sourceName : String
  sourceType : String
  imageUrl : String
  videoUrl : Option String
  relatedStories : List RelatedStory
  categories : List String
  publishedAt : ℕ
  isPublished : Bool
  type : String
  lang : String
deriving DecidableEq

/-- The structured JSON the Rewrite Engine parses out of the generation
response; `""` models an absent (undefined) field, which is what the
worker's truthiness tests see. -/
structure GeminiData where
  title : String
  summary : String
  category : String
  slug_en : String
deriving DecidableEq

/-! ## Feed Fetcher (src/src/services/rssService.js `fetchAndQueueRSS`,
duplicated at src/server.js lines 354-436)

The network boundary is explicit: the input is the list of successfully
fetched feeds, each a `(feed name, parsed items)` pair — a feed whose fetch
threw contributes nothing, matching the per-feed catch.  `extractRSSImage`
is HTML scraping over the raw entry and is carried as the entry's
pre-extracted `image` field.  Fresh Mongo ids come from the `newId`
supply. -/

/-- A parsed feed entry (`item` of `feed.items`), with the result of
`extractRSSImage(item)` attached (`none` = the extractor returned null). -/
structure FeedEntry where
  title : String
  link : String
  contentSnippet : String
  image : Option String
deriving DecidableEq

/-- A row of the recent-posts dedup query (`.select('title url')`). -/
structure PostRow where
  title : String
  url : String
deriving DecidableEq

/-- State the fetch cycle touches: the module-level lock flag, the posts
visible to the 72-hour dedup query, and the queue collection. -/
structure RSSState where
  isRSSFetching : Bool
  recentPosts : List PostRow
  queue : List QItem
deriving DecidableEq

/-- The title drawn from a queued row for the similarity pool:
`q.text.split('\n')[0].replace("Title: ", "")`. -/
def queueTitleOf (q : QItem) : String :=
  (replaceFirstChars "Title: ".toList []
    ((splitOnChar '\n' q.text.toList).headD [])).asString

/-- The queue document built for a fresh feed entry (rssService.js lines
80-96). -/
def rssQueueItem (feedName : String) (e : FeedEntry) (freshId : String) : QItem :=
  let mediaObj : List MediaObj :=
    match e.image with
    | some img => [{ type := "photo", media_url_https := img, url := img, variants := [] }]
    | none => []
  { id := freshId,
    text := "Title: " ++ e.title ++ "\n" ++ "Summary: " ++ e.contentSnippet,
    url := e.link,
    imageUrl := (e.image).getD "",
    media := mediaObj,
    eeMedia := some mediaObj,
    source := feedName,
    userName := feedName,
    relatedStories := [],
    queuedAt := 0 }

/-- Accumulator of one fetch cycle: the in-memory comparison pools, the
count, the queue collection and the fresh-id counter. -/
structure RSSAcc where
  titles : List String
  urls : List String
  count : ℕ
  queue : List QItem
  nextId : ℕ
deriving DecidableEq

/-- The body of the per-entry loop (rssService.js lines 67-100). -/
def rssProcessEntry (newId : ℕ → String) (feedName : String) (acc : RSSAcc)
    (e : FeedEntry) : RSSAcc :=
  let cleanLink := normalizeUrl e.link
  if acc.urls.contains cleanLink then acc
  else
    let isDup := !acc.titles.isEmpty && decide (bestMatchRating e.title acc.titles > mkRat 13 20)
    if isDup then acc
    else
      { titles := acc.titles ++ [e.title],
        urls := acc.urls ++ [cleanLink],
        count := acc.count + 1,
        queue := acc.queue ++ [rssQueueItem feedName e (newId acc.nextId)],
        nextId := acc.nextId + 1 }

/-- One feed: only the five most recent entries are considered. -/
def rssProcessFeed (newId : ℕ → String) (acc : RSSAcc)
    (feed : String × List FeedEntry) : RSSAcc :=
  (feed.2.take 5).foldl (rssProcessEntry newId feed.1) acc

/-- `fetchAndQueueRSS()`: the guard, the dedup-pool construction, the
nested feed/entry loops.  Returns the queued count together with the
post-cycle state (the `finally` restores the flag to its pre-cycle
value, so the state's flag is unchanged). -/
def fetchAndQueueRSS (newId : ℕ → String) (st : RSSState)
    (feeds : List (String × List FeedEntry)) : ℕ × RSSState :=
  if st.isRSSFetching then (0, st)
  else
    let existingTitles :=
      ((st.recentPosts.map (fun p => p.title)) ++ (st.queue.map queueTitleOf)).filter
        (fun t => !(t == ""))
    let existingUrls :=
      (st.recentPosts.map (fun p => normalizeUrl p.url))
        ++ (st.queue.map (fun q => normalizeUrl q.url))
    let acc := feeds.foldl (rssProcessFeed newId)
      { titles := existingTitles, urls := existingUrls, count := 0,
        queue := st.queue, nextId := 0 }
    (acc.count, { st with queue := acc.queue })

/-! ## Publish Worker (src/server.js lines 3652-3737, the per-minute cron
callback; the unnamed services variant `processQueueItem` differs only in
its fallback strings and its catch clause)

The external generative call (`formatTweetWithGemini`, which catches all
its own errors and returns parsed JSON or null) is an oracle
`String → String → Option GeminiData`.  `generatePostId()` randomness is a
supply `ℕ → ℕ` indexed by the item's position in the batch. -/

/-- Stable insertion into a list sorted ascending by `key` (new element
goes after existing equals), matching a stable database sort. -/
def insertByKey (key : QItem → ℕ) (x : QItem) : List QItem → List QItem
  | [] => [x]
  | y :: ys => if key x < key y then x :: y :: ys else y :: insertByKey key x ys

/-- Stable sort ascending by `key`. -/
def sortByKey (key : QItem → ℕ) : List QItem → List QItem
  | [] => []
  | x :: xs => insertByKey key x (sortByKey key xs)

/-- `Queue.find().sort({ queuedAt: 1 }).limit(3)`: the at most three
oldest-queued items. -/
def workerBatch (queue : List QItem) : List QItem :=
  (sortByKey (fun q => q.queuedAt) queue).take 3

/-- The last-mile dedup query (lines 3665-3668): is there a post whose
stored URL matches the normalized item URL as a case-insensitive
regex-escaped containment? -/
def isDupOfPosts (posts : List Post) (cleanUrl : String) : Bool :=
  posts.any (fun p => containsChars (lowerChars cleanUrl.toList) (lowerChars p.url.toList))

/-- `Queue.deleteOne({ _id: ... })`: remove the first (in a well-formed
store, the only) document with that identity. -/
def deleteById (queue : List QItem) (i : String) : List QItem :=
  queue.eraseP (fun q => q.id == i)

/-- `newPost.save()` against the store's unique sparse index on `Post.url`
(src/server.js line 172): inserting a post whose non-empty URL already
exists throws the duplicate-key error; otherwise the post is appended. -/
def savePost (posts : List Post) (p : Post) : Except String (List Post) :=
  if !(p.url == "") && posts.any (fun q => q.url == p.url) then
    Except.error "E11000 duplicate key error"
  else Except.ok (posts ++ [p])

/-- The image-search slug selection (lines 3694-3696): the engine slug when
it has at least three characters, else the URL slug, else the fixed
fallback. -/
def computeSearchSlug (slugEn url : String) : String :=
  let s1 := if slugEn == "" || decide (slugEn.length < 3) then extractSlugFromUrl url
            else slugEn
  if s1 == "" then "latest-telugu-news" else s1

/-- `item.extendedEntities?.media || item.media || []` (an empty array is
truthy in JavaScript, so a present-but-empty `eeMedia` wins). -/
def workerMediaList (item : QItem) : List MediaObj :=
  match item.eeMedia with
  | some l => l
  | none => item.media

/-- The cover image (lines 3682-3685): the explicit image, else the first
`extendedEntities` attachment. -/
def workerImageUrl (item : QItem) : String :=
  if !(item.imageUrl == "") then item.imageUrl
  else
    match item.eeMedia with
    | some (m :: _) => m.media_url_https
    | _ => item.imageUrl

/-- Video detection (lines 3687-3692): when the first attachment is a
video, the best-bitrate mp4 variant, if any, becomes the video URL and the
post type flips to `normal_video`. -/
def workerVideo (item : QItem) : Option String × String :=
  match workerMediaList item with
  | m :: _ =>
    if m.type == "video" then
      let best := (sortVariantsDesc ((m.variants).filter
        (fun v => v.content_type == "video/mp4"))).head?
      match best with
      | some v => (some v.url, "normal_video")
      | none => (none, "normal_post")
    else (none, "normal_post")
  | [] => (none, "normal_post")
where
  insertDesc (x : VideoVariant) : List VideoVariant → List VideoVariant
    | [] => [x]
    | y :: ys => if x.bitrate > y.bitrate then x :: y :: ys else y :: insertDesc x ys
  /-- Stable `sort((a, b) => b.bitrate - a.bitrate)`. -/
  sortVariantsDesc : List VideoVariant → List VideoVariant
    | [] => []
    | x :: xs => insertDesc x (sortVariantsDesc xs)

/-- The `new Post({...})` document of lines 3698-3718. -/
def buildPost (freshId now : ℕ) (item : QItem) (g : GeminiData) : Post :=
  let video := workerVideo item
  { postId := freshId,
    title := g.title,
    summary := g.summary,
    text := g.summary,
    url := item.url,
    imageSearchSlug := computeSearchSlug g.slug_en item.url,
    source := if item.source == "" then "Manual" else item.source,
    sourceName := if item.userName == "" then "Manual" else item.userName,
    sourceType := if item.source == "Manual" then "manual" else "rss",
    imageUrl := workerImageUrl item,
    videoUrl := video.1,
    relatedStories := item.relatedStories,
    categories := [if g.category == "" then "General" else g.category],
    publishedAt := now,
    isPublished := true,
    type := video.2,
    lang := "te" }

/-- The queue and posts collections the worker reads and writes. -/
structure WorkerState where
  queue : List QItem
  posts : List Post
deriving DecidableEq

/-- One item of the worker loop body, try/catch included (lines 3659-3735):
last-mile dedup, rewrite, publish; the store insert is the one modelled
throw, and the catch clause only logs — on that path the state is returned
untouched, the queue document included. -/
def workerStep (rewrite : String → String → Option GeminiData) (freshId now : ℕ)
    (st : WorkerState) (item : QItem) : WorkerState :=
  if !(item.url == "") && isDupOfPosts st.posts (normalizeUrl item.url) then
    { st with queue := deleteById st.queue item.id }
  else
    match rewrite item.text item.url with
    | some g =>
      match savePost st.posts (buildPost freshId now item g) with
      | Except.ok posts2 => { queue := deleteById st.queue item.id, posts := posts2 }
      | Except.error _ => st
    | none => { st with queue := deleteById st.queue item.id }

/-- The fold step of the worker loop: process one item, advance the
fresh-id index. -/
def stepFold (rewrite : String → String → Option GeminiData) (idGen : ℕ → ℕ)
    (now : ℕ) (acc : WorkerState × ℕ) (item : QItem) : WorkerState × ℕ :=
  (workerStep rewrite (idGen acc.2) now acc.1 item, acc.2 + 1)

/-- One drain cycle of the worker cron callback: select the batch, then
process it sequentially. -/
def drainCycle (rewrite : String → String → Option GeminiData) (idGen : ℕ → ℕ)
    (now : ℕ) (st : WorkerState) : WorkerState :=
  ((workerBatch st.queue).foldl (stepFold rewrite idGen now) (st, 0)).1

/-! ## Manual enqueue endpoint `POST /api/add-content-to-queue`

Three handler variants exist.  The second server variant (src/server.js
lines 4952-4977) and src/index.js lines 484-506 build and insert the queue
document; the first server variant (src/server.js lines 1060-1085)
destructures only `content, url, title, imageUrl, source` from the body
yet references the identifier `relatedStories` in its document literal
(line 1070), which is bound nowhere in that module — evaluating the
literal throws a ReferenceError that the surrounding catch turns into a
500 response, before `Queue.create` is reached. -/

/-- Request body of the endpoint. -/
structure ReqBody where
  content : String
  url : String
  title : String
  imageUrl : String
  source : String
  relatedStories : List RelatedStory
deriving DecidableEq

/-- Handler outcome: 400, 500, or 200 with the enqueued document. -/
inductive HandlerResp where
  | badRequest : HandlerResp
  | serverError : String → HandlerResp
  | success : QItem → HandlerResp
deriving DecidableEq

/-- The queue document the working variants build (src/server.js lines
4957-4971). -/
def manualQueueItem (newId : String) (now : ℕ) (b : ReqBody) : QItem :=
  { id := newId,
    text := if !(b.title == "") then "Title: " ++ b.title ++ "\n" ++ "Content: " ++ b.content
            else if !(b.content == "") then b.content
            else "Article from " ++ b.url,
    url := b.url,
    imageUrl := b.imageUrl,
    media := if !(b.imageUrl == "") then
        [{ type := "photo", media_url_https := b.imageUrl, url := b.imageUrl, variants := [] }]
      else [],
    eeMedia := if !(b.imageUrl == "") then
        some [{ type := "", media_url_https := b.imageUrl, url := "", variants := [] }]
      else none,
    source := if b.source == "" then "Manual Paste" else b.source,
    userName := if b.source == "" then "Admin" else b.source,
    relatedStories := b.relatedStories,
    queuedAt := now }

/-- The working handler variant (src/server.js lines 4952-4977, likewise
src/index.js lines 484-506 minus the relatedStories field): reject a body
with neither content nor url, else enqueue exactly one document. -/
def addContentToQueue (newId : String) (now : ℕ) (queue : List QItem)
    (b : ReqBody) : HandlerResp × List QItem :=
  if b.content == "" && b.url == "" then (HandlerResp.badRequest, queue)
  else
    let item := manualQueueItem newId now b
    (HandlerResp.success item, queue ++ [item])

/-- The first server variant (src/server.js lines 1060-1085): the guard is
identical, but building the document evaluates the unbound identifier
`relatedStories` (line 1070; the destructuring at line 1062 does not bind
it and no module-level binding exists), so every accepted request throws a
ReferenceError that the catch converts into a 500 — nothing is ever
enqueued. -/
def addContentToQueueBugged (queue : List QItem) (b : ReqBody) :
    HandlerResp × List QItem :=
  if b.content == "" && b.url == "" then (HandlerResp.badRequest, queue)
  else (HandlerResp.serverError "relatedStories is not defined", queue)

/-! ## Concrete fixtures and shape predicates used by the theorems -/

/-- The shape invariants `parseUrlChars` guarantees and `serializeUrl`
relies on: nonempty colon-free scheme, nonempty host free of `/?#`,
nonempty pathname that starts with '/' and is free of `?#`. -/
def UrlWf (u : UrlObj) : Prop :=
  u.scheme ≠ [] ∧ (∀ c ∈ u.scheme, (c == ':') = false)
  ∧ u.host ≠ [] ∧ (∀ c ∈ u.host, hostChar c = true)
  ∧ u.pathname ≠ [] ∧ u.pathname.head? = some '/'
  ∧ (∀ c ∈ u.pathname, pathChar c = true)

/-- A plain queue item for concrete instantiations (fields overridden per
use). -/
def baseItem : QItem :=
  { id := "q1", text := "t", url := "", imageUrl := "", media := [], eeMedia := none,
    source := "Manual", userName := "", relatedStories := [], queuedAt := 0 }

/-- A plain stored post for concrete instantiations. -/
def basePost : Post :=
  { postId := 1, title := "t", summary := "s", text := "s", url := "https://a.com/x",
    imageSearchSlug := "", source := "M", sourceName := "M", sourceType := "manual",
    imageUrl := "", videoUrl := none, relatedStories := [], categories := ["General"],
    publishedAt := 0, isPublished := true, type := "normal_post", lang := "te" }

/-- The C1 counterexample queue item: its URL carries a fragment, so its
WHATWG serialization ("https://a.com/#f") differs from the raw string and
the last-mile containment check misses the identical stored URL. -/
def c1Item : QItem := { baseItem with url := "https://a.com#f", text := "some news" }

/-- The C1 counterexample stored post: same raw URL as the queue item. -/
def c1Post : Post := { basePost with url := "https://a.com#f" }

/-- The C1 counterexample rewrite result. -/
def c1Gemini : GeminiData := { title := "t2", summary := "s2", category := "", slug_en := "" }

/-- A rewrite oracle that always succeeds with `c1Gemini`. -/
def c1Rewrite : String → String → Option GeminiData := fun _ _ => some c1Gemini

/-- First C6 counterexample feed title (21 characters, 20 bigrams). -/
def c6Title1 : String := "abcdefghijklmnopqrstu"

/-- Second C6 counterexample feed title: shares exactly 13 of 20 bigrams
with `c6Title1`, so the Dice rating is 26/40 = 0.65 exactly. -/
def c6Title2 : String := "abcdefghijklmn0123456"

/-- First feed's entry. -/
def c6Entry1 : FeedEntry :=
  { title := c6Title1, link := "https://f1.com/a", contentSnippet := "", image := none }

/-- Second feed's entry. -/
def c6Entry2 : FeedEntry :=
  { title := c6Title2, link := "https://f2.com/b", contentSnippet := "", image := none }

/-- A concrete fresh-id supply. -/
def c6NewId : ℕ → String := fun n => (List.replicate (n + 1) 'i').asString

/-- The pre-cycle state with no prior record. -/
def c6State : RSSState := { isRSSFetching := false, recentPosts := [], queue := [] }

/-- The C8 request body: content present, so the claim expects one enqueued
QueueItem and a success response. -/
def c8Body : ReqBody :=
  { content := "hello world", url := "", title := "", imageUrl := "", source := "",
    relatedStories := [] }

/-! ## Worker lemmas -/

theorem workerStep_queue_sublist (r : String → String → Option GeminiData) (i n : ℕ)
    (st : WorkerState) (item : QItem) :
    List.Sublist (workerStep r i n st item).queue st.queue := by
  unfold workerStep deleteById
  split
  · exact List.eraseP_sublist _
  · split
    · split
      · exact List.eraseP_sublist _
      · exact List.Sublist.refl _
    · exact List.eraseP_sublist _

theorem workerStep_posts_grow (r : String → String → Option GeminiData) (i n : ℕ)
    (st : WorkerState) (item : QItem) :
    ∃ l, (workerStep r i n st item).posts = st.posts ++ l := by
  unfold workerStep
  split
  · exact ⟨[], (List.append_nil _).symm⟩
  · split
    · split
      · rename_i posts2 hp
        unfold savePost at hp
        split at hp
        · cases hp
        · cases hp
          exact ⟨_, rfl⟩
      · exact ⟨[], (List.append_nil _).symm⟩
    · exact ⟨[], (List.append_nil _).symm⟩

theorem workerStep_mem_of_ne (r : String → String → Option GeminiData) (i n : ℕ)
    (st : WorkerState) (item q : QItem) (hq : q ∈ st.queue) (hne : ¬ q.id = item.id) :
    q ∈ (workerStep r i n st item).queue := by
  have herase : q ∈ deleteById st.queue item.id := by
    unfold deleteById
    rw [List.mem_eraseP_of_neg (by simpa using hne)]
    exact hq
  unfold workerStep
  split
  · exact herase
  · split
    · split
      · exact herase
      · exact hq
    · exact herase

theorem deleteById_id_not_mem (queue : List QItem) (i : String)
    (hn : (queue.map (fun q => q.id)).Nodup) :
    i ∉ (deleteById queue i).map (fun q => q.id) := by
  induction queue with
  | nil => simp [deleteById, List.eraseP_nil]
  | cons h t ih =>
    simp only [List.map_cons, List.nodup_cons] at hn
    unfold deleteById
    rw [List.eraseP_cons]
    by_cases hh : h.id = i
    · have hb : (h.id == i) = true := by simpa using hh
      rw [hb]
      simpa [← hh] using hn.1
    · have hb : (h.id == i) = false := by simpa using hh
      rw [hb]
      simp only [cond_false, List.map_cons, List.mem_cons]
      rintro (hcase | hcase)
      · exact hh hcase.symm
      · exact ih hn.2 hcase

theorem foldl_queue_sublist (r : String → String → Option GeminiData) (g : ℕ → ℕ)
    (n : ℕ) (l : List QItem) :
    ∀ (st : WorkerState) (k : ℕ),
      List.Sublist ((l.foldl (stepFold r g n) (st, k)).1).queue st.queue := by
  induction l with
  | nil => intro st k; exact List.Sublist.refl _
  | cons b bs ih =>
    intro st k
    simp only [List.foldl_cons]
    exact (ih _ _).trans (workerStep_queue_sublist r (g k) n st b)

theorem foldl_frame (r : String → String → Option GeminiData) (g : ℕ → ℕ)
    (n : ℕ) (l : List QItem) :
    ∀ (st : WorkerState) (k : ℕ) (q : QItem), q ∈ st.queue →
      (∀ b ∈ l, ¬ q.id = b.id) → q ∈ ((l.foldl (stepFold r g n) (st, k)).1).queue := by
  induction l with
  | nil => intro st k q hq _; exact hq
  | cons b bs ih =>
    intro st k q hq hids
    simp only [List.foldl_cons]
    exact ih _ _ q
      (workerStep_mem_of_ne r (g k) n st b q hq (hids b (List.mem_cons_self b bs)))
      (fun x hx => hids x (List.mem_cons_of_mem b hx))

theorem foldl_id_absent (r : String → String → Option GeminiData) (g : ℕ → ℕ)
    (n : ℕ) (l : List QItem) (st : WorkerState) (k : ℕ) (i : String)
    (h : i ∉ st.queue.map (fun q => q.id)) :
    i ∉ ((l.foldl (stepFold r g n) (st, k)).1).queue.map (fun q => q.id) :=
  fun hmem => h (((foldl_queue_sublist r g n l st k).map (fun q => q.id)).mem hmem)

theorem isDupOfPosts_mono (posts l2 : List Post) (u : String)
    (h : isDupOfPosts posts u = true) : isDupOfPosts (posts ++ l2) u = true := by
  unfold isDupOfPosts at *
  rw [List.any_append, h]
  rfl

theorem workerStep_nodup (r : String → String → Option GeminiData) (i n : ℕ)
    (st : WorkerState) (item : QItem)
    (hn : (st.queue.map (fun q => q.id)).Nodup) :
    ((workerStep r i n st item).queue.map (fun q => q.id)).Nodup :=
  hn.sublist ((workerStep_queue_sublist r i n st item).map _)

theorem foldl_dup_deleted (r : String → String → Option GeminiData) (g : ℕ → ℕ)
    (n : ℕ) (l : List QItem) :
    ∀ (st : WorkerState) (k : ℕ) (item : QItem),
      (st.queue.map (fun q => q.id)).Nodup → item ∈ l → ¬ item.url = "" →
      isDupOfPosts st.posts (normalizeUrl item.url) = true →
      item.id ∉ ((l.foldl (stepFold r g n) (st, k)).1).queue.map (fun q => q.id) := by
  induction l with
  | nil => intro st k item hn hmem _ _; cases hmem
  | cons b bs ih =>
    intro st k item hn hmem hurl hdup
    simp only [List.foldl_cons, stepFold]
    rcases List.mem_cons.mp hmem with hcase | hcase
    · subst hcase
      have hb : (item.url == "") = false := by simpa using hurl
      have habs : item.id ∉ (workerStep r (g k) n st item).queue.map (fun q => q.id) := by
        have hstep : workerStep r (g k) n st item =
            { st with queue := deleteById st.queue item.id } := by
          simp [workerStep, hb, hdup]
        rw [hstep]
        exact deleteById_id_not_mem st.queue item.id hn
      exact foldl_id_absent r g n bs _ _ _ habs
    · have hn2 := workerStep_nodup r (g k) n st b hn
      obtain ⟨l2, hl2⟩ := workerStep_posts_grow r (g k) n st b
      have hdup2 : isDupOfPosts (workerStep r (g k) n st b).posts
          (normalizeUrl item.url) = true := by
        rw [hl2]
        exact isDupOfPosts_mono _ _ _ hdup
      exact ih _ _ item hn2 hcase hurl hdup2

theorem foldl_posts_none (r : String → String → Option GeminiData) (g : ℕ → ℕ)
    (n : ℕ) (hr : ∀ t u, r t u = none) (l : List QItem) :
    ∀ (st : WorkerState) (k : ℕ), ((l.foldl (stepFold r g n) (st, k)).1).posts = st.posts := by
  induction l with
  | nil => intro st k; rfl
  | cons b bs ih =>
    intro st k
    simp only [List.foldl_cons, stepFold]
    rw [ih]
    unfold workerStep
    split
    · rfl
    · rw [hr b.text b.url]

/-! ## Claims -/

/-- C2: for a QueueItem carrying a sourceUrl whose normalized form matches,
case-insensitively as substring containment, the URL of some existing Post,
the Worker deletes the QueueItem and creates no new Post for it: the
per-item step returns exactly the state with the item erased from the queue
and the posts untouched, and over a full drain cycle (store well formed:
distinct document ids) such a batch item is gone from the queue at the end. -/
theorem c2_lastMile_dedup_deletes (r : String → String → Option GeminiData)
    (g : ℕ → ℕ) (i n : ℕ) (st : WorkerState) (item : QItem)
    (hurl : ¬ item.url = "")
    (hdup : isDupOfPosts st.posts (normalizeUrl item.url) = true) :
    workerStep r i n st item = { st with queue := deleteById st.queue item.id }
    ∧ ((st.queue.map (fun q => q.id)).Nodup → item ∈ workerBatch st.queue →
        item.id ∉ (drainCycle r g n st).queue.map (fun q => q.id)) := by
  constructor
  · have hb : (item.url == "") = false := by simpa using hurl
    simp [workerStep, hb, hdup]
  · intro hn hmem
    unfold drainCycle
    exact foldl_dup_deleted r g n (workerBatch st.queue) st 0 item hn hmem hurl hdup

/-- C2 witness: a concrete duplicate item is removed and publishes nothing. -/
theorem c2_lastMile_dedup_deletes_witness :
    workerStep (fun _ _ => none) 1 0
        { queue := [{ baseItem with url := "https://a.com/x?y=1" }], posts := [basePost] }
        { baseItem with url := "https://a.com/x?y=1" }
      = { queue := [], posts := [basePost] } := by
  rw [(c2_lastMile_dedup_deletes (fun _ _ => none) (fun _ => 0) 1 0 _ _
    (by decide) (by decide)).1]
  decide

/-- C3: a QueueItem whose rewrite invocation returns null is deleted from
the queue with zero Posts created and no retry: the per-item step is
exactly queue-erasure with posts untouched, and a cycle whose rewrite
oracle always returns null leaves the posts collection unchanged. -/
theorem c3_null_rewrite_drops :
    (∀ (r : String → String → Option GeminiData) (i n : ℕ) (st : WorkerState)
        (item : QItem), r item.text item.url = none →
        workerStep r i n st item = { st with queue := deleteById st.queue item.id })
    ∧ (∀ (r : String → String → Option GeminiData) (g : ℕ → ℕ) (n : ℕ)
        (st : WorkerState), (∀ t u, r t u = none) →
        (drainCycle r g n st).posts = st.posts) := by
  constructor
  · intro r i n st item h
    unfold workerStep
    split
    · rfl
    · rw [h]
  · intro r g n st hr
    unfold drainCycle
    exact foldl_posts_none r g n hr (workerBatch st.queue) st 0

/-- C3 witness: a concrete null-rewrite item is dropped, no post appears. -/
theorem c3_null_rewrite_drops_witness :
    workerStep (fun _ _ => none) 1 0
        { queue := [{ baseItem with id := "q9", queuedAt := 3 }], posts := [] }
        { baseItem with id := "q9", queuedAt := 3 }
      = { queue := [], posts := [] } := by
  rw [c3_null_rewrite_drops.1 (fun _ _ => none) 1 0 _ _ rfl]
  decide

/-- C4: a feed fetch cycle invoked while `isRSSFetching` is set returns 0
queued and leaves the whole state — the ingestion queue included —
unchanged. -/
theorem c4_rss_lock_guard (newId : ℕ → String) (st : RSSState)
    (feeds : List (String × List FeedEntry)) (h : st.isRSSFetching = true) :
    fetchAndQueueRSS newId st feeds = (0, st) := by
  simp [fetchAndQueueRSS, h]

/-- C4 witness: a concrete locked state is untouched. -/
theorem c4_rss_lock_guard_witness :
    fetchAndQueueRSS (fun _ => "f")
        { isRSSFetching := true, recentPosts := [], queue := [] }
        [("F", [{ title := "t", link := "https://a.com/x", contentSnippet := "",
                  image := none }])]
      = (0, { isRSSFetching := true, recentPosts := [], queue := [] }) :=
  c4_rss_lock_guard _ _ _ rfl

/-- C7: `extractSlugFromUrl` yields the final path segment — a
purely-numeric final segment skipped in favor of the one before it —
with `.htm`/`.html` stripped, underscores turned to hyphens and the result
lowercased; on the claim's example URL it yields "politics", not "12345";
and any parse failure yields the empty string. -/
theorem c7_extractSlug_behavior :
    (∀ cs, parseUrlChars cs = none → extractSlugFromUrlChars cs = [])
    ∧ extractSlugFromUrl "https://site.com/news/politics/12345" = "politics"
    ∧ extractSlugFromUrl "https://a.com/tag/My_Story.HTML" = "my-story"
    ∧ extractSlugFromUrl "https://a.com/read/page_1.htm" = "page-1"
    ∧ extractSlugFromUrl "nonsense" = ""
    ∧ extractSlugFromUrl "" = "" := by
  refine ⟨?_, by decide, by decide, by decide, by decide, by decide⟩
  intro cs h
  simp [extractSlugFromUrlChars, h]

/-- C7 witness: the failure clause applied at a concrete unparsable URL. -/
theorem c7_extractSlug_behavior_witness :
    extractSlugFromUrlChars (String.toList "no scheme here") = [] :=
  c7_extractSlug_behavior.1 (String.toList "no scheme here") (by decide)

/-- C9: the published Post's image-search slug is the engine slug when that
is at least 3 characters, else the URL-derived slug, else the fixed
fallback "latest-telugu-news"; an item with no URL and an empty engine slug
gets the fallback slug, and an empty engine category defaults the
categories to ["General"]. -/
theorem c9_imageSearchSlug_selection :
    (∀ s u, 3 ≤ s.length → computeSearchSlug s u = s)
    ∧ (∀ s u, s.length < 3 → ¬ extractSlugFromUrl u = "" →
        computeSearchSlug s u = extractSlugFromUrl u)
    ∧ (∀ s u, s.length < 3 → extractSlugFromUrl u = "" →
        computeSearchSlug s u = "latest-telugu-news")
    ∧ (∀ (i n : ℕ) (item : QItem) (g : GeminiData), item.url = "" → g.slug_en = "" →
        g.category = "" →
        (buildPost i n item g).imageSearchSlug = "latest-telugu-news"
        ∧ (buildPost i n item g).categories = ["General"]) := by
  refine ⟨?_, ?_, ?_, ?_⟩
  · intro s u h
    have hne : ¬ s = "" := by
      intro he
      rw [he] at h
      simp at h
    have hb : (s == "") = false := by simpa using hne
    have h3 : decide (s.length < 3) = false := by simp [Nat.not_lt.mpr h]
    simp [computeSearchSlug, hb, h3]
  · intro s u h hx
    have h3 : decide (s.length < 3) = true := by simp [h]
    have hb : (extractSlugFromUrl u == "") = false := by simpa using hx
    simp [computeSearchSlug, h3, hb]
  · intro s u h hx
    have h3 : decide (s.length < 3) = true := by simp [h]
    simp [computeSearchSlug, h3, hx]
  · intro i n item g hu hs hc
    constructor
    · show computeSearchSlug g.slug_en item.url = "latest-telugu-news"
      rw [hu, hs]
      decide
    · show [if g.category == "" then "General" else g.category] = ["General"]
      rw [hc]
      decide

/-- C9 witness: a concrete no-URL item with empty engine slug and category
publishes with the fallback slug and the default category. -/
theorem c9_imageSearchSlug_selection_witness :
    (buildPost 5 0 { baseItem with text := "x longer than ten" }
        { title := "త", summary := "స", category := "", slug_en := "" }).imageSearchSlug
      = "latest-telugu-news"
    ∧ (buildPost 5 0 { baseItem with text := "x longer than ten" }
        { title := "త", summary := "స", category := "", slug_en := "" }).categories
      = ["General"] :=
  c9_imageSearchSlug_selection.2.2.2 5 0 _ _ rfl rfl rfl

/-- C10: one drain cycle only ever deletes members of the batch it selected
at cycle start (the at most three oldest-queued items): any queue document
whose id is outside the batch's ids is still present, unchanged, after the
cycle. -/
theorem c10_cycle_frame (r : String → String → Option GeminiData) (g : ℕ → ℕ)
    (n : ℕ) (st : WorkerState) (q : QItem) (hq : q ∈ st.queue)
    (hid : q.id ∉ (workerBatch st.queue).map (fun b => b.id)) :
    q ∈ (drainCycle r g n st).queue ∧ (workerBatch st.queue).length ≤ 3 := by
  constructor
  · unfold drainCycle
    refine foldl_frame r g n (workerBatch st.queue) st 0 q hq ?_
    intro b hb heq
    exact hid (heq ▸ List.mem_map_of_mem (fun x => x.id) hb)
  · exact List.length_take_le 3 _

/-- C10 witness: with a four-item queue the newest item survives the cycle. -/
theorem c10_cycle_frame_witness :
    ({ baseItem with id := "q4", queuedAt := 9 } : QItem)
      ∈ (drainCycle (fun _ _ => none) (fun _ => 0) 0
          { queue := [{ baseItem with id := "q1", queuedAt := 1 },
                      { baseItem with id := "q2", queuedAt := 2 },
                      { baseItem with id := "q3", queuedAt := 3 },
                      { baseItem with id := "q4", queuedAt := 9 }],
            posts := [] }).queue :=
  (c10_cycle_frame (fun _ _ => none) (fun _ => 0) 0 _ _
    (by decide) (by decide)).1

/-- C1 counterexample: on the persist-throws path the QueueItem is NOT
removed.  Concretely: the dedup containment check misses, the rewrite
succeeds, `Post.save` throws the duplicate-key error — and after the full
drain cycle the item is still in the queue, refuting deletion on every
path. -/
theorem c1_persist_throw_keeps_item_cex :
    isDupOfPosts [c1Post] (normalizeUrl c1Item.url) = false
    ∧ savePost [c1Post] (buildPost 5 0 c1Item c1Gemini)
        = Except.error "E11000 duplicate key error"
    ∧ drainCycle c1Rewrite (fun _ => 5) 0 { queue := [c1Item], posts := [c1Post] }
        = { queue := [c1Item], posts := [c1Post] } := by
  refine ⟨by decide, by rfl, by decide⟩

/-- C1 (amended): the Worker deletes the QueueItem on the duplicate-skip,
null-rewrite and successful-publish paths, but when persisting the new Post
throws, the per-item catch only logs and the QueueItem is left in the
queue (the state is returned untouched). -/
theorem c1_removal_per_path (r : String → String → Option GeminiData) (i n : ℕ)
    (st : WorkerState) (item : QItem) :
    (¬ item.url = "" → isDupOfPosts st.posts (normalizeUrl item.url) = true →
      workerStep r i n st item = { st with queue := deleteById st.queue item.id })
    ∧ (r item.text item.url = none →
      workerStep r i n st item = { st with queue := deleteById st.queue item.id })
    ∧ (∀ g posts2, r item.text item.url = some g →
        savePost st.posts (buildPost i n item g) = Except.ok posts2 →
        (!(item.url == "") && isDupOfPosts st.posts (normalizeUrl item.url)) = false →
        workerStep r i n st item = { queue := deleteById st.queue item.id, posts := posts2 })
    ∧ (∀ g e, r item.text item.url = some g →
        savePost st.posts (buildPost i n item g) = Except.error e →
        (!(item.url == "") && isDupOfPosts st.posts (normalizeUrl item.url)) = false →
        workerStep r i n st item = st) := by
  refine ⟨?_, ?_, ?_, ?_⟩
  · intro hurl hdup
    have hb : (item.url == "") = false := by simpa using hurl
    simp [workerStep, hb, hdup]
  · intro h
    unfold workerStep
    split
    · rfl
    · rw [h]
  · intro g posts2 hr hsave hguard
    unfold workerStep
    rw [hguard]
    simp only [Bool.false_eq_true, if_false, hr, hsave]
  · intro g e hr hsave hguard
    unfold workerStep
    rw [hguard]
    simp only [Bool.false_eq_true, if_false, hr, hsave]

/-- C1 witness: the persist-throws branch instantiated at the concrete
counterexample state — the item survives its own processing step. -/
theorem c1_removal_per_path_witness :
    workerStep c1Rewrite 5 0 { queue := [c1Item], posts := [c1Post] } c1Item
      = { queue := [c1Item], posts := [c1Post] } :=
  (c1_removal_per_path c1Rewrite 5 0 { queue := [c1Item], posts := [c1Post] }
    c1Item).2.2.2 c1Gemini "E11000 duplicate key error" rfl (by rfl) (by decide)

/-- C6 counterexample: two entries from different feeds whose titles have
similarity exactly 0.65 (so ≥ 0.65 as the claim reads) are BOTH enqueued,
because the fetcher's comparison is strict (`rating > 0.65`). -/
theorem c6_threshold_tie_cex :
    compareTwoStrings c6Title2 c6Title1 = mkRat 13 20
    ∧ (mkRat 13 20 : ℚ) = 13 / 20
    ∧ (fetchAndQueueRSS c6NewId c6State [("F1", [c6Entry1]), ("F2", [c6Entry2])]).1 = 2
    ∧ (fetchAndQueueRSS c6NewId c6State
        [("F1", [c6Entry1]), ("F2", [c6Entry2])]).2.queue.length = 2 := by
  refine ⟨by decide, by norm_num [Rat.mkRat_eq_div], by decide, by decide⟩

/-- C6 (amended): with similarity strictly greater than 0.65 and no prior
record, only the first entry in fetch order is enqueued; the second is
skipped within the same cycle because the first title and normalized URL
enter the in-memory pools immediately. -/
theorem c6_similar_second_skipped (newId : ℕ → String) (n1 n2 : String)
    (e1 e2 : FeedEntry)
    (hsim : compareTwoStrings e2.title e1.title > mkRat 13 20) :
    (fetchAndQueueRSS newId { isRSSFetching := false, recentPosts := [], queue := [] }
        [(n1, [e1]), (n2, [e2])]).1 = 1
    ∧ (fetchAndQueueRSS newId { isRSSFetching := false, recentPosts := [], queue := [] }
        [(n1, [e1]), (n2, [e2])]).2.queue = [rssQueueItem n1 e1 (newId 0)] := by
  have h1 : rssProcessFeed newId
      { titles := [], urls := [], count := 0, queue := [], nextId := 0 } (n1, [e1])
      = { titles := [e1.title], urls := [normalizeUrl e1.link], count := 1,
          queue := [rssQueueItem n1 e1 (newId 0)], nextId := 1 } := by
    simp [rssProcessFeed, rssProcessEntry]
  have hd : decide (bestMatchRating e2.title [e1.title] > mkRat 13 20) = true := by
    apply decide_eq_true
    have hm : bestMatchRating e2.title [e1.title]
        = max 0 (compareTwoStrings e2.title e1.title) := by
      simp [bestMatchRating]
    rw [hm]
    exact lt_of_lt_of_le hsim (le_max_right _ _)
  have h2 : rssProcessEntry newId n2
      { titles := [e1.title], urls := [normalizeUrl e1.link], count := 1,
        queue := [rssQueueItem n1 e1 (newId 0)], nextId := 1 } e2
      = { titles := [e1.title], urls := [normalizeUrl e1.link], count := 1,
          queue := [rssQueueItem n1 e1 (newId 0)], nextId := 1 } := by
    unfold rssProcessEntry
    rcases hc : ([normalizeUrl e1.link]).contains (normalizeUrl e2.link) with hfalse | htrue
    · simp only [hc, Bool.false_eq_true, if_false, hd, List.isEmpty_cons,
        Bool.not_false, Bool.true_and, if_true]
    · simp only [hc, if_true]
  have hmain : fetchAndQueueRSS newId
      { isRSSFetching := false, recentPosts := [], queue := [] } [(n1, [e1]), (n2, [e2])]
      = (1, { isRSSFetching := false, recentPosts := [],
              queue := [rssQueueItem n1 e1 (newId 0)] }) := by
    unfold fetchAndQueueRSS
    rw [if_neg (by simp)]
    simp only [List.map_nil, List.filter_nil, List.append_nil, List.foldl_cons,
      List.foldl_nil, h1]
    have hfeed2 : rssProcessFeed newId
        { titles := [e1.title], urls := [normalizeUrl e1.link], count := 1,
          queue := [rssQueueItem n1 e1 (newId 0)], nextId := 1 } (n2, [e2])
        = { titles := [e1.title], urls := [normalizeUrl e1.link], count := 1,
            queue := [rssQueueItem n1 e1 (newId 0)], nextId := 1 } := by
      unfold rssProcessFeed
      simp only [List.take, List.foldl_cons, List.foldl_nil, h2]
    rw [hfeed2]
  exact ⟨by rw [hmain], by rw [hmain]⟩

/-- C6 witness: identical titles (rating 1 > 0.65) across two feeds — only
the first entry is enqueued. -/
theorem c6_similar_second_skipped_witness :
    (fetchAndQueueRSS c6NewId { isRSSFetching := false, recentPosts := [], queue := [] }
        [("F1", [{ title := "Modi wins big", link := "https://f1.com/a",
                   contentSnippet := "", image := none }]),
         ("F2", [{ title := "Modi wins big", link := "https://f2.com/b",
                   contentSnippet := "", image := none }])]).1 = 1 :=
  (c6_similar_second_skipped c6NewId "F1" "F2" _ _ (by decide)).1

/-- C8: evaluated at the failing input, the first server variant's handler
500s on a valid body and enqueues nothing (the undeclared `relatedStories`
reference throws before `Queue.create`); an empty body is still a 400; and
the working variant (second server copy / index.js) does create exactly one
QueueItem and respond success. -/
theorem c8_handler_variant_evaluation :
    addContentToQueueBugged [] c8Body
        = (HandlerResp.serverError "relatedStories is not defined", [])
    ∧ addContentToQueueBugged [] { c8Body with content := "" }
        = (HandlerResp.badRequest, [])
    ∧ addContentToQueue "id1" 7 [] c8Body
        = (HandlerResp.success (manualQueueItem "id1" 7 c8Body),
           [manualQueueItem "id1" 7 c8Body]) := by
  refine ⟨by decide, by decide, by decide⟩

/-! ## C5 machinery: shape invariants of parsed URLs and the
parse/serialize round trip -/

theorem takeWhile_append_all (p : Char → Bool) (l r : List Char)
    (h : ∀ c ∈ l, p c = true) : (l ++ r).takeWhile p = l ++ r.takeWhile p := by
  induction l with
  | nil => rfl
  | cons a as ih =>
    simp only [List.cons_append, List.takeWhile_cons, h a (List.mem_cons_self a as),
      if_true]
    rw [ih (fun c hc => h c (List.mem_cons_of_mem a hc))]

theorem dropWhile_append_all (p : Char → Bool) (l r : List Char)
    (h : ∀ c ∈ l, p c = true) : (l ++ r).dropWhile p = r.dropWhile p := by
  induction l with
  | nil => rfl
  | cons a as ih =>
    simp only [List.cons_append, List.dropWhile_cons, h a (List.mem_cons_self a as),
      if_true]
    exact ih (fun c hc => h c (List.mem_cons_of_mem a hc))

theorem takeWhile_cons_false (p : Char → Bool) (a : Char) (l : List Char)
    (h : p a = false) : (a :: l).takeWhile p = [] := by
  rw [List.takeWhile_cons, h]
  rfl

theorem dropWhile_cons_false (p : Char → Bool) (a : Char) (l : List Char)
    (h : p a = false) : (a :: l).dropWhile p = a :: l := by
  rw [List.dropWhile_cons, h]
  rfl

theorem takeWhile_all (p : Char → Bool) (l : List Char)
    (h : ∀ c ∈ l, p c = true) : l.takeWhile p = l := by
  have := takeWhile_append_all p l [] h
  simpa using this

theorem dropWhile_all (p : Char → Bool) (l : List Char)
    (h : ∀ c ∈ l, p c = true) : l.dropWhile p = [] := by
  have := dropWhile_append_all p l [] h
  simpa using this

theorem dropWhile_head_false (p : Char → Bool) (l : List Char) (a : Char)
    (t : List Char) (h : l.dropWhile p = a :: t) : p a = false := by
  induction l with
  | nil => cases h
  | cons b bs ih =>
    rw [List.dropWhile_cons] at h
    by_cases hb : p b = true
    · rw [if_pos hb] at h
      exact ih h
    · rw [if_neg hb] at h
      cases h
      simpa using hb

theorem parsePSF_fst (cs : List Char) : (parsePSF cs).1 = cs.takeWhile pathChar := by
  unfold parsePSF
  split
  · rfl
  · rfl
  · rfl

theorem parseUrlChars_wf (cs : List Char) (u : UrlObj)
    (h : parseUrlChars cs = some u) : UrlWf u := by
  unfold parseUrlChars at h
  split at h
  · cases h
  · split at h
    · rename_i rest2 heq
      split at h
      · cases h
      · have hschP : ¬ (cs.takeWhile (fun c => !(c == ':'))).isEmpty = true := by
          assumption
        have hhostP : ¬ (rest2.takeWhile hostChar).isEmpty = true := by assumption
        obtain rfl := Option.some.inj h
        refine ⟨?_, ?_, ?_, ?_, ?_, ?_, ?_⟩
        · show cs.takeWhile (fun c => !(c == ':')) ≠ []
          simpa using hschP
        · intro c hc
          have := List.mem_takeWhile_imp hc
          simpa using this
        · show rest2.takeWhile hostChar ≠ []
          simpa using hhostP
        · intro c hc
          exact List.mem_takeWhile_imp hc
        · show (if (parsePSF (rest2.dropWhile hostChar)).1.isEmpty then ['/']
            else (parsePSF (rest2.dropWhile hostChar)).1) ≠ []
          by_cases hps : (parsePSF (rest2.dropWhile hostChar)).1.isEmpty = true
          · rw [if_pos hps]
            simp
          · rw [if_neg hps]
            simpa using hps
        · show (if (parsePSF (rest2.dropWhile hostChar)).1.isEmpty then ['/']
            else (parsePSF (rest2.dropWhile hostChar)).1).head? = some '/'
          by_cases hps : (parsePSF (rest2.dropWhile hostChar)).1.isEmpty = true
          · rw [if_pos hps]
            rfl
          · rw [if_neg hps]
            rw [parsePSF_fst] at hps ⊢
            cases hr3 : rest2.dropWhile hostChar with
            | nil =>
              rw [hr3] at hps
              simp at hps
            | cons a t =>
              rw [hr3] at hps
              have hfa := dropWhile_head_false hostChar rest2 a t hr3
              have : a = '/' ∨ a = '?' ∨ a = '#' := by
                by_cases h1 : a = '/'
                · exact Or.inl h1
                · by_cases h2 : a = '?'
                  · exact Or.inr (Or.inl h2)
                  · refine Or.inr (Or.inr ?_)
                    simp [hostChar, h1, h2] at hfa
                    exact hfa
              rcases this with rfl | rfl | rfl
              · rw [List.takeWhile_cons, if_pos (by decide)]
                rfl
              · rw [takeWhile_cons_false pathChar _ _ (by decide)] at hps
                simp at hps
              · rw [takeWhile_cons_false pathChar _ _ (by decide)] at hps
                simp at hps
        · intro c hc
          by_cases hps : (parsePSF (rest2.dropWhile hostChar)).1.isEmpty = true
          · rw [if_pos hps] at hc
            rcases List.mem_singleton.mp hc with rfl
            decide
          · rw [if_neg hps, parsePSF_fst] at hc
            exact List.mem_takeWhile_imp hc
    · cases h

theorem serializeUrl_no_search (u : UrlObj) (hs : u.search = []) :
    serializeUrl u = u.scheme ++ (':' :: '/' :: '/' :: u.host) ++ u.pathname
      ++ (match u.fragment with
          | none => []
          | some f => '#' :: f) := by
  unfold serializeUrl
  rw [hs]
  simp

theorem parsePSF_path_frag (p : List Char) (f : Option (List Char))
    (hp : ∀ c ∈ p, pathChar c = true) :
    parsePSF (p ++ (match f with
      | none => []
      | some g => '#' :: g)) = (p, [], f) := by
  cases f with
  | none =>
    show parsePSF (p ++ []) = (p, [], none)
    rw [List.append_nil]
    unfold parsePSF
    rw [dropWhile_all pathChar p hp, takeWhile_all pathChar p hp]
  | some g =>
    show parsePSF (p ++ '#' :: g) = (p, [], some g)
    unfold parsePSF
    rw [dropWhile_append_all pathChar p _ hp,
        dropWhile_cons_false pathChar '#' g (by decide),
        takeWhile_append_all pathChar p _ hp,
        takeWhile_cons_false pathChar '#' g (by decide), List.append_nil]
    rfl

theorem parse_serialize_mk (sch hst pth : List Char) (frg : Option (List Char))
    (h1 : sch ≠ []) (h2 : ∀ c ∈ sch, (c == ':') = false)
    (h3 : hst ≠ []) (h4 : ∀ c ∈ hst, hostChar c = true)
    (h5 : pth ≠ []) (h6 : pth.head? = some '/')
    (h7 : ∀ c ∈ pth, pathChar c = true) :
    parseUrlChars (serializeUrl ⟨sch, hst, pth, [], frg⟩)
      = some ⟨sch, hst, pth, [], frg⟩ := by
  obtain ⟨ptail, hp⟩ : ∃ t, pth = '/' :: t := by
    cases hpn : pth with
    | nil => exact absurd hpn h5
    | cons a t =>
      rw [hpn] at h6
      simp only [List.head?_cons, Option.some.injEq] at h6
      exact ⟨t, by rw [h6]⟩
  rw [show serializeUrl ⟨sch, hst, pth, [], frg⟩
      = sch ++ ':' :: '/' :: '/' :: (hst ++ (pth ++ (match frg with
          | none => []
          | some f => '#' :: f))) from by
    unfold serializeUrl
    simp]
  have hpred : ∀ c ∈ sch, (fun c => !(c == ':')) c = true := by
    intro c hc
    simp [h2 c hc]
  unfold parseUrlChars
  rw [takeWhile_append_all _ sch _ hpred, takeWhile_cons_false _ _ _ (by decide),
      dropWhile_append_all _ sch _ hpred, dropWhile_cons_false _ _ _ (by decide),
      List.append_nil]
  rw [if_neg (by simpa using h1)]
  show (if (List.takeWhile hostChar (hst ++ (pth ++ _))).isEmpty then none else _) = _
  rw [takeWhile_append_all hostChar hst _ h4, hp,
      show ('/' :: ptail) ++ (match frg with
        | none => []
        | some f => '#' :: f) = '/' :: (ptail ++ (match frg with
        | none => []
        | some f => '#' :: f)) from rfl,
      takeWhile_cons_false hostChar _ _ (by decide), List.append_nil,
      dropWhile_append_all hostChar hst _ h4,
      dropWhile_cons_false hostChar _ _ (by decide)]
  rw [if_neg (by simpa using h3)]
  rw [show '/' :: (ptail ++ (match frg with
        | none => []
        | some f => '#' :: f)) = ('/' :: ptail) ++ (match frg with
        | none => []
        | some f => '#' :: f) from rfl, ← hp]
  rw [parsePSF_path_frag pth frg h7]
  rw [if_neg (by simpa using h5)]

theorem parse_serialize (u : UrlObj) (hw : UrlWf u) (hs : u.search = []) :
    parseUrlChars (serializeUrl u) = some u := by
  obtain ⟨h1, h2, h3, h4, h5, h6, h7⟩ := hw
  cases u with
  | mk sch hst pth srch frg =>
    cases hs
    exact parse_serialize_mk sch hst pth frg h1 h2 h3 h4 h5 h6 h7

theorem normalize_fixed_point (u : UrlObj) (hw : UrlWf u) (hs : u.search = [])
    (hlast : ¬ (serializeUrl u).getLast? = some '/') :
    normalizeUrlChars (serializeUrl u) = serializeUrl u := by
  unfold normalizeUrlChars
  rw [parse_serialize u hw hs]
  have hu : ({ u with search := [] } : UrlObj) = u := by
    cases u
    cases hs
    rfl
  show (if ((serializeUrl { u with search := [] }).getLast? == some '/') = true then
      (serializeUrl { u with search := [] }).dropLast
    else serializeUrl { u with search := [] }) = serializeUrl u
  rw [hu, if_neg (by simpa using hlast)]

theorem parse_hostonly (sch hst : List Char)
    (h1 : sch ≠ []) (h2 : ∀ c ∈ sch, (c == ':') = false)
    (h3 : hst ≠ []) (h4 : ∀ c ∈ hst, hostChar c = true) :
    parseUrlChars (sch ++ ':' :: '/' :: '/' :: hst)
      = some ⟨sch, hst, ['/'], [], none⟩ := by
  have hpred : ∀ c ∈ sch, (fun c => !(c == ':')) c = true := by
    intro c hc
    simp [h2 c hc]
  unfold parseUrlChars
  rw [takeWhile_append_all _ sch _ hpred, takeWhile_cons_false _ _ _ (by decide),
      dropWhile_append_all _ sch _ hpred, dropWhile_cons_false _ _ _ (by decide),
      List.append_nil, if_neg (by simpa using h1)]
  show (if (List.takeWhile hostChar hst).isEmpty then none else _) = _
  rw [takeWhile_all hostChar hst h4, dropWhile_all hostChar hst h4,
      if_neg (by simpa using h3)]
  rfl

theorem normalizeUrlChars_idem (cs : List Char) (u : UrlObj)
    (h : parseUrlChars cs = some u)
    (hns : ¬ (normalizeUrlChars cs).getLast? = some '/') :
    normalizeUrlChars (normalizeUrlChars cs) = normalizeUrlChars cs := by
  have hw := parseUrlChars_wf cs u h
  cases u with
  | mk sch hst pth srch frg =>
    obtain ⟨h1, h2, h3, h4, h5, h6, h7⟩ := hw
    have hnorm : normalizeUrlChars cs =
        (if (serializeUrl ⟨sch, hst, pth, [], frg⟩).getLast? == some '/' then
          (serializeUrl ⟨sch, hst, pth, [], frg⟩).dropLast
        else serializeUrl ⟨sch, hst, pth, [], frg⟩) := by
      unfold normalizeUrlChars
      rw [h]
    have hwf : UrlWf ⟨sch, hst, pth, [], frg⟩ := ⟨h1, h2, h3, h4, h5, h6, h7⟩
    by_cases hlastt : (serializeUrl ⟨sch, hst, pth, [], frg⟩).getLast? = some '/'
    · -- the first normalization strips one trailing slash
      have hres : normalizeUrlChars cs = (serializeUrl ⟨sch, hst, pth, [], frg⟩).dropLast := by
        rw [hnorm, if_pos (by simpa using hlastt)]
      rw [hres] at hns ⊢
      cases frg with
      | some f =>
        -- the slash is the fragment's last character
        have hser : serializeUrl ⟨sch, hst, pth, [], some f⟩
            = sch ++ (':' :: '/' :: '/' :: hst) ++ pth ++ '#' :: f :=
          serializeUrl_no_search _ rfl
        have hf : f ≠ [] := by
          intro hfe
          rw [hser, hfe, List.getLast?_append_of_ne_nil _ (by simp)] at hlastt
          simp at hlastt
        have hdl : (serializeUrl ⟨sch, hst, pth, [], some f⟩).dropLast
            = sch ++ (':' :: '/' :: '/' :: hst) ++ pth ++ '#' :: f.dropLast := by
          rw [hser, List.dropLast_append_of_ne_nil _ (by simp),
              List.dropLast_cons_of_ne_nil hf]
        have hser2 : serializeUrl ⟨sch, hst, pth, [], some f.dropLast⟩
            = sch ++ (':' :: '/' :: '/' :: hst) ++ pth ++ '#' :: f.dropLast :=
          serializeUrl_no_search _ rfl
        rw [hdl] at hns ⊢
        rw [← hser2] at hns ⊢
        exact normalize_fixed_point _ ⟨h1, h2, h3, h4, h5, h6, h7⟩ rfl hns
      | none =>
        -- the slash ends the pathname
        have hser : serializeUrl ⟨sch, hst, pth, [], none⟩
            = sch ++ (':' :: '/' :: '/' :: hst) ++ pth := by
          rw [serializeUrl_no_search _ rfl]
          show sch ++ (':' :: '/' :: '/' :: hst) ++ pth ++ [] = _
          rw [List.append_nil]
        have hpl : pth.getLast? = some '/' := by
          rw [hser, List.getLast?_append_of_ne_nil _ h5] at hlastt
          exact hlastt
        have hdl : (serializeUrl ⟨sch, hst, pth, [], none⟩).dropLast
            = sch ++ (':' :: '/' :: '/' :: hst) ++ pth.dropLast := by
          rw [hser, List.dropLast_append_of_ne_nil _ h5]
        rw [hdl] at hns ⊢
        by_cases hm : pth.dropLast = []
        · -- pathname was exactly "/": the result is scheme://host, a fixed point
          rw [hm, List.append_nil] at hns ⊢
          unfold normalizeUrlChars
          rw [parse_hostonly sch hst h1 h2 h3 h4]
          have hser2 : serializeUrl (⟨sch, hst, ['/'], [], none⟩ : UrlObj)
              = sch ++ (':' :: '/' :: '/' :: hst) ++ ['/'] := by
            rw [serializeUrl_no_search _ rfl]
            show sch ++ (':' :: '/' :: '/' :: hst) ++ ['/'] ++ [] = _
            rw [List.append_nil]
          show (if ((serializeUrl (⟨sch, hst, ['/'], [], none⟩ : UrlObj)).getLast?
                == some '/') = true then
              (serializeUrl (⟨sch, hst, ['/'], [], none⟩ : UrlObj)).dropLast
            else serializeUrl (⟨sch, hst, ['/'], [], none⟩ : UrlObj))
            = sch ++ (':' :: '/' :: '/' :: hst)
          rw [hser2, if_pos (by
              rw [List.getLast?_append_of_ne_nil _ (by simp)]
              rfl),
            List.dropLast_append_of_ne_nil _ (by simp)]
          show sch ++ (':' :: '/' :: '/' :: hst) ++ [] = _
          rw [List.append_nil]
        · -- pathname keeps a nonempty stem: the result serializes the stem
          have hser2 : serializeUrl ⟨sch, hst, pth.dropLast, [], none⟩
              = sch ++ (':' :: '/' :: '/' :: hst) ++ pth.dropLast := by
            rw [serializeUrl_no_search _ rfl]
            show sch ++ (':' :: '/' :: '/' :: hst) ++ pth.dropLast ++ [] = _
            rw [List.append_nil]
          have hwf2 : UrlWf ⟨sch, hst, pth.dropLast, [], none⟩ := by
            refine ⟨h1, h2, h3, h4, hm, ?_, ?_⟩
            · show pth.dropLast.head? = some '/'
              cases hpth : pth with
              | nil => exact absurd hpth h5
              | cons a t =>
                rw [hpth] at h6
                simp only [List.head?_cons, Option.some.injEq] at h6
                cases ht : t with
                | nil =>
                  rw [hpth, ht] at hm
                  simp at hm
                | cons b t2 =>
                  rw [List.dropLast_cons_of_ne_nil (by simp), List.head?_cons, h6]
            · intro c hc
              exact h7 c (List.dropLast_sublist pth |>.mem hc)
          rw [← hser2] at hns ⊢
          exact normalize_fixed_point _ hwf2 rfl hns
    · -- no trailing slash: the first normalization is already a fixed point
      have hres : normalizeUrlChars cs = serializeUrl ⟨sch, hst, pth, [], frg⟩ := by
        rw [hnorm, if_neg (by simpa using hlastt)]
      rw [hres]
      exact normalize_fixed_point _ hwf rfl hlastt

/-- C5 counterexample: `normalizeUrl` is not idempotent on every valid URL.
On a path ending in a double slash, each application strips exactly one
trailing slash, so a second application changes the result again. -/
theorem c5_normalizeUrl_not_idempotent_cex :
    (parseUrlChars (String.toList "https://a.com/b//")).isSome = true
    ∧ normalizeUrl "https://a.com/b//" = "https://a.com/b/"
    ∧ normalizeUrl (normalizeUrl "https://a.com/b//") = "https://a.com/b"
    ∧ ¬ normalizeUrl (normalizeUrl "https://a.com/b//")
        = normalizeUrl "https://a.com/b//" := by
  refine ⟨by decide, by decide, by decide, by decide⟩

/-- C5 (amended): `normalizeUrl` is idempotent on every valid (parseable)
URL whose normalized form does not itself still end in '/' — that is,
except when the query-stripped serialization ends in two or more slashes,
where each application strips exactly one. -/
theorem c5_normalizeUrl_idempotent (s : String)
    (hp : (parseUrlChars s.toList).isSome = true)
    (hns : ¬ (normalizeUrl s).toList.getLast? = some '/') :
    normalizeUrl (normalizeUrl s) = normalizeUrl s := by
  obtain ⟨u, hu⟩ := Option.isSome_iff_exists.mp hp
  unfold normalizeUrl
  show (normalizeUrlChars (normalizeUrlChars s.toList).asString.toList).asString
    = (normalizeUrlChars s.toList).asString
  rw [show (normalizeUrlChars s.toList).asString.toList = normalizeUrlChars s.toList
    from rfl]
  exact congrArg List.asString (normalizeUrlChars_idem s.toList u hu hns)

/-- C5 witness: the amended idempotence at a concrete URL with a query and
a single path segment. -/
theorem c5_normalizeUrl_idempotent_witness :
    normalizeUrl (normalizeUrl "https://a.com/x?q=1")
      = normalizeUrl "https://a.com/x?q=1" :=
  c5_normalizeUrl_idempotent "https://a.com/x?q=1" (by decide) (by decide)


end TeluguRewrite
